import Mathlib

/-!
maplestory-timekeeper: channel discovery, name resolution and reconciliation.

A shallow embedding of `main.go`: the voice-channel discovery loop, the
scan-or-create phase, the five-minute reconciliation tick and
`makeChannelName` / `localizeTime`, with the Discord session and the Go
`time` package represented by explicit values.
-/

namespace Timekeeper

/-! ## Strings -/

/-- Pieces of a character list between the occurrences of `sep`: a list
without `sep` is one piece, and `n` separators give `n + 1` pieces. -/
def splitChars (sep : Char) : List Char → List (List Char)
  | [] => [[]]
  | c :: cs =>
    if c = sep then [] :: splitChars sep cs
    else
      match splitChars sep cs with
      | [] => [[c]]
      | p :: ps => (c :: p) :: ps

/-- Go `strings.Split(s, sep)` for a separator of one character, as in
`strings.Split(chv.Name, " ")`. -/
def strings.Split (s : String) (sep : Char) : List String :=
  (splitChars sep s.data).map String.mk

/-! ## The Go `time` package, as far as `makeChannelName` uses it -/

/-- What a location says about one instant: the abbreviation printed for
`MST` in a layout and the offset from UTC in seconds. -/
structure Zone where
  abbr : String
  offset : Int

/-- Go `*time.Location`: a name and the zone in force at each instant
(Unix seconds). -/
structure Location where
  name : String
  lookup : Int → Zone

/-- Go `time.Time`: an instant in Unix seconds together with the location it
is shown in. -/
structure Time where
  sec : Int
  loc : Location

/-- Proleptic Gregorian date `(year, month, day)` of a day number counted
from 1970-01-01. -/
def civil (z0 : Int) : Int × Int × Int :=
  let z := z0 + 719468
  let era := z / 146097
  let doe := z % 146097
  let yoe := (doe - doe / 1460 + doe / 36524 - doe / 146096) / 365
  let doy := doe - (365 * yoe + yoe / 4 - yoe / 100)
  let mp := (5 * doy + 2) / 153
  let d := doy - (153 * mp + 2) / 5 + 1
  let m := if mp < 10 then mp + 3 else mp - 9
  let y := yoe + era * 400 + (if m ≤ 2 then 1 else 0)
  (y, m, d)

/-- Day number, counted from 1970-01-01, of a proleptic Gregorian date. -/
def daysFromCivil (y m d : Int) : Int :=
  let y1 := if m ≤ 2 then y - 1 else y
  let era := y1 / 400
  let yoe := y1 % 400
  let mp := if m > 2 then m - 3 else m + 9
  let doy := (153 * mp + 2) / 5 + d - 1
  let doe := yoe * 365 + yoe / 4 - yoe / 100 + doy
  era * 146097 + doe - 719468

/-- Day number of the first Sunday on or after the given date
(1970-01-01 was a Thursday). -/
def sundayOnOrAfter (y m d : Int) : Int :=
  let n := daysFromCivil y m d
  n + (7 - (n + 4) % 7) % 7

/-- United States daylight-saving rule of the zone database (in force since
2007): daylight time runs from 02:00 local standard time on the second Sunday
of March to 02:00 local daylight time on the first Sunday of November. -/
def usDaylight (stdOffset : Int) (t : Int) : Bool :=
  let y := (civil (t / 86400)).1
  let start := sundayOnOrAfter y 3 8 * 86400 + 7200 - stdOffset
  let stop := sundayOnOrAfter y 11 1 * 86400 + 7200 - (stdOffset + 3600)
  decide (start ≤ t ∧ t < stop)

/-- Victoria (Australia) daylight-saving rule of the zone database (in force
since 2008): daylight time runs from 02:00 local standard time on the first
Sunday of October to 02:00 local standard time on the first Sunday of April. -/
def auDaylight (stdOffset : Int) (t : Int) : Bool :=
  let y := (civil (t / 86400)).1
  let stop := sundayOnOrAfter y 4 1 * 86400 + 7200 - stdOffset
  let start := sundayOnOrAfter y 10 1 * 86400 + 7200 - stdOffset
  decide (t < stop ∨ start ≤ t)

/-- Unix seconds of a UTC date and time of day, Go
`time.Date(y, m, d, hh, mm, ss, 0, time.UTC).Unix()`. -/
def unixOf (y m d hh mm ss : Int) : Int :=
  daysFromCivil y m d * 86400 + hh * 3600 + mm * 60 + ss

/-- First instant (2008-04-05T16:00:00Z) from which all three daylight rules
above are the ones of the zone database. -/
def rulesEpoch : Int := 1207411200

/-- Go `time.UTC`. -/
def UTC : Location :=
  ⟨"UTC", fun _ => ⟨"UTC", 0⟩⟩

/-- Zone database entry `America/Los_Angeles`. -/
def losAngeles : Location :=
  ⟨"America/Los_Angeles",
    fun t => if usDaylight (-28800) t then ⟨"PDT", -25200⟩ else ⟨"PST", -28800⟩⟩

/-- Zone database entry `America/New_York`. -/
def newYork : Location :=
  ⟨"America/New_York",
    fun t => if usDaylight (-18000) t then ⟨"EDT", -14400⟩ else ⟨"EST", -18000⟩⟩

/-- Zone database entry `Australia/Melbourne`. -/
def melbourne : Location :=
  ⟨"Australia/Melbourne",
    fun t => if auDaylight 36000 t then ⟨"AEDT", 39600⟩ else ⟨"AEST", 36000⟩⟩

/-- Go `time.LoadLocation` over a zone database that holds the zones the
program names; `none` is the error result. -/
def LoadLocation (name : String) : Option Location :=
  if name = "America/Los_Angeles" then some losAngeles
  else if name = "America/New_York" then some newYork
  else if name = "Australia/Melbourne" then some melbourne
  else if name = "UTC" ∨ name = "" then some UTC
  else none

/-- Go `Time.UTC`. -/
def Time.UTC (t : Time) : Time :=
  ⟨t.sec, Timekeeper.UTC⟩

/-- Go `Time.In`. -/
def Time.In (t : Time) (loc : Location) : Time :=
  ⟨t.sec, loc⟩

/-- Zone in force at the instant of `t` in its location. -/
def Time.zone (t : Time) : Zone :=
  t.loc.lookup t.sec

/-- Seconds since 1970-01-01T00:00:00 on the local clock of `t`. -/
def Time.abs (t : Time) : Int :=
  t.sec + t.zone.offset

/-- Go `Time.Hour`. -/
def Time.Hour (t : Time) : Int :=
  t.abs % 86400 / 3600

/-- Go `Time.Minute`. -/
def Time.Minute (t : Time) : Int :=
  t.abs % 3600 / 60

/-- Go `Time.Weekday`, Sunday being 0. -/
def Time.Weekday (t : Time) : Int :=
  (t.abs / 86400 + 4) % 7

/-- Go `Time.Month`, January being 1. -/
def Time.Month (t : Time) : Int :=
  (civil (t.abs / 86400)).2.1

/-- Go `Time.Day`. -/
def Time.Day (t : Time) : Int :=
  (civil (t.abs / 86400)).2.2

/-- Decimal digit character of `n % 10`. -/
def digitChar (n : Nat) : Char :=
  match n % 10 with
  | 0 => '0'
  | 1 => '1'
  | 2 => '2'
  | 3 => '3'
  | 4 => '4'
  | 5 => '5'
  | 6 => '6'
  | 7 => '7'
  | 8 => '8'
  | _ => '9'

/-- Two-digit zero-padded decimal, as the layout chunks `15`, `04` and `02`
print a field below 100. -/
def pad2 (n : Int) : List Char :=
  [digitChar (n.toNat / 10), digitChar n.toNat]

/-- Go short weekday names. -/
def shortDayName (w : Int) : String :=
  if w = 0 then "Sun"
  else if w = 1 then "Mon"
  else if w = 2 then "Tue"
  else if w = 3 then "Wed"
  else if w = 4 then "Thu"
  else if w = 5 then "Fri"
  else "Sat"

/-- Go short month names. -/
def shortMonthName (m : Int) : String :=
  if m = 1 then "Jan"
  else if m = 2 then "Feb"
  else if m = 3 then "Mar"
  else if m = 4 then "Apr"
  else if m = 5 then "May"
  else if m = 6 then "Jun"
  else if m = 7 then "Jul"
  else if m = 8 then "Aug"
  else if m = 9 then "Sep"
  else if m = 10 then "Oct"
  else if m = 11 then "Nov"
  else "Dec"

/-- Layout interpreter for the chunks `15`, `04`, `MST`, `Mon`, `Jan` and
`02`; every other character of the layout is copied. -/
def formatChars (t : Time) : List Char → List Char
  | '1' :: '5' :: r => pad2 t.Hour ++ formatChars t r
  | '0' :: '4' :: r => pad2 t.Minute ++ formatChars t r
  | '0' :: '2' :: r => pad2 t.Day ++ formatChars t r
  | 'M' :: 'S' :: 'T' :: r => t.zone.abbr.data ++ formatChars t r
  | 'M' :: 'o' :: 'n' :: r => (shortDayName t.Weekday).data ++ formatChars t r
  | 'J' :: 'a' :: 'n' :: r => (shortMonthName t.Month).data ++ formatChars t r
  | c :: r => c :: formatChars t r
  | [] => []

/-- Go `Time.Format` for layouts made of the chunks above and literal
characters. -/
def Time.Format (t : Time) (layout : String) : String :=
  ⟨formatChars t layout.data⟩

/-! ## `makeChannelName` and `localizeTime` -/

/-- Source `localizeTime`. Go prints the `LoadLocation` error and then
`Time.In` panics on the nil location; the zone database of this model holds
every name `makeChannelName` passes, so the `none` branch stands for a run
that does not continue and is never taken. -/
def localizeTime (timeUTC : Time) (location : String) : Time :=
  match LoadLocation location with
  | some loc => timeUTC.In loc
  | none => timeUTC

/-- Source `makeChannelName`, with the reading of `time.Now()` passed in as
`now` (Unix seconds). -/
def makeChannelName (now : Int) (location : String) : String :=
  let utcTime := (Time.mk now UTC).UTC
  let locTime :=
    if location = "PST" then localizeTime utcTime "America/Los_Angeles"
    else if location = "EST" then localizeTime utcTime "America/New_York"
    else if location = "AEST" then localizeTime utcTime "Australia/Melbourne"
    else utcTime
  locTime.Format "15:04 MST | Mon Jan 02"

/-! ## Discord -/

/-- Value of `discordgo.ChannelTypeGuildVoice`. -/
def ChannelTypeGuildVoice : Nat := 2

/-- The fields of `discordgo.Channel` the program reads (`Type_` is the Go
field `Type`). -/
structure Channel where
  ID : String
  Name : String
  Type_ : Nat
  deriving DecidableEq

/-- The calls the program makes on the session. A result `(*Channel, error)`
is a pair whose components may each be absent, as in Go. -/
structure Session where
  GuildChannels : String → Except String (List Channel)
  GuildChannelCreate : String → String → Nat → Option Channel × Option String
  ChannelEdit : String → String → Option Channel × Option String

/-- Inner map `map[string]*discordgo.Channel`; `none` is the nil pointer (a
key that is absent reads as nil as well). -/
abbrev ChanMap := String → Option Channel

/-- Global `timeGuilds`, `map[string]map[string]*discordgo.Channel`. -/
abbrev Registry := String → ChanMap

/-- Assignment `m[k] = v`. -/
def ChanMap.set (m : ChanMap) (k : String) (v : Option Channel) : ChanMap :=
  fun k1 => if k1 = k then v else m k1

/-- Assignment `timeGuilds[g] = m`. -/
def Registry.set (reg : Registry) (g : String) (m : ChanMap) : Registry :=
  fun g1 => if g1 = g then m else reg g1

/-- The keys every inner map is initialised with (lines 55-60). -/
def zoneLabels : List String :=
  ["UTC", "PST", "EST", "AEST"]

/-! ## Discovery (lines 62-88) -/

/-- The `switch tz` of the discovery loop: the label a zone token maps to,
`none` for the `default: continue` branch. -/
def mapTZ (tz : String) : Option String :=
  if tz = "PST" ∨ tz = "PDT" then some "PST"
  else if tz = "EST" ∨ tz = "EDT" then some "EST"
  else if tz = "AEST" ∨ tz = "AEDT" then some "AEST"
  else if tz = "UTC" then some "UTC"
  else none

/-- Label under which the discovery loop records a voice channel of the given
name, `none` when the loop body leaves the map alone. -/
def classify (name : String) : Option String :=
  let chNameParts := strings.Split name ' '
  if h : chNameParts.length > 2 then
    let tz := chNameParts[1]
    mapTZ tz
  else none

/-- One iteration of `for _, chv := range chs`. -/
def scanChannel (m : ChanMap) (chv : Channel) : ChanMap :=
  if chv.Type_ ≠ ChannelTypeGuildVoice then m
  else
    match classify chv.Name with
    | some k => m.set k (some chv)
    | none => m

/-- The discovery loop over the channels of one guild, starting from the map
whose four entries are nil. -/
def discover (chs : List Channel) : ChanMap :=
  chs.foldl scanChannel (fun _ => none)

/-! ## Startup (lines 24-101 and 142-147) -/

/-- The places where `main` calls `os.Exit`. -/
inductive StartupError where
  | configRead
  | configDecode
  | sessionNew
  | guildChannels
  | channelCreate
  | sessionOpen
  deriving DecidableEq

/-- Argument of `os.Exit` at each of those places (lines 28, 33, 41, 51, 97
and 146). -/
def exitCode : StartupError → Nat
  | .configRead => 1
  | .configDecode => 1
  | .sessionNew => 2
  | .guildChannels => 1
  | .channelCreate => 1
  | .sessionOpen => 3

/-- Source `Config`. -/
structure Config where
  BotID : Int
  BotToken : String
  BotSecret : String
  GuildIDs : List String

/-- A creation request `GuildChannelCreate(guild, name, voice)`, tagged with
the label it is issued for. -/
structure CreateRequest where
  guild : String
  label : String
  name : String
  deriving DecidableEq

/-- Body of `for k := range timeGuilds[guildID]` (lines 92-99); `now g k` is
the clock reading of the `makeChannelName` call made for label `k` of guild
`g`. -/
def ensureChannel (s : Session) (now : String → String → Int) (guildID : String)
    (st : ChanMap × List CreateRequest) (k : String) :
    Except StartupError (ChanMap × List CreateRequest) :=
  match st.1 k with
  | some _ => .ok st
  | none =>
    let format := makeChannelName (now guildID k) k
    let r := s.GuildChannelCreate guildID format ChannelTypeGuildVoice
    match r.2 with
    | some _ => .error .channelCreate
    | none => .ok (st.1.set k r.1, st.2 ++ [⟨guildID, k, format⟩])

/-- The creation loop of one guild; `order` is the order in which Go ranges
over the four keys of the inner map. -/
def ensureAll (s : Session) (now : String → String → Int) (order : List String)
    (guildID : String) (m : ChanMap) (log : List CreateRequest) :
    Except StartupError (ChanMap × List CreateRequest) :=
  order.foldlM (ensureChannel s now guildID) (m, log)

/-- Body of `for _, guildID := range cfg.GuildIDs` (lines 46-101). -/
def setupGuild (s : Session) (now : String → String → Int) (order : String → List String)
    (st : Registry × List CreateRequest) (guildID : String) :
    Except StartupError (Registry × List CreateRequest) :=
  match s.GuildChannels guildID with
  | .error _ => .error .guildChannels
  | .ok chs =>
    match ensureAll s now (order guildID) guildID (discover chs) st.2 with
    | .error e => .error e
    | .ok r => .ok (st.1.set guildID r.1, r.2)

/-- The scan-or-create phase over all configured guilds. -/
def buildRegistry (s : Session) (now : String → String → Int) (order : String → List String)
    (guildIDs : List String) : Except StartupError (Registry × List CreateRequest) :=
  guildIDs.foldlM (setupGuild s now order) (fun _ _ => none, [])

/-- What `main` meets outside the program before the update loop runs. -/
structure World where
  ReadFile : String → Except String String
  Decode : String → Except String Config
  New : String → Except String Session
  Open : Session → Option String
  now : String → String → Int
  order : String → List String

/-- Source `main` up to the wait for a signal: the registry the update loop
works on and the creation requests issued, or the place of the fatal exit. -/
def main (w : World) : Except StartupError (Registry × List CreateRequest) :=
  match w.ReadFile "./config.toml" with
  | .error _ => .error .configRead
  | .ok b =>
    match w.Decode b with
    | .error _ => .error .configDecode
    | .ok cfg =>
      match w.New ("Bot " ++ cfg.BotToken) with
      | .error _ => .error .sessionNew
      | .ok discord =>
        match buildRegistry discord w.now w.order cfg.GuildIDs with
        | .error e => .error e
        | .ok r =>
          match w.Open discord with
          | some _ => .error .sessionOpen
          | none => .ok r

/-! ## Reconciliation (lines 109-133) -/

/-- A rename request `ChannelEdit(id, name)`, tagged with the guild and label
of the entry it is issued for. -/
structure RenameRequest where
  guild : String
  label : String
  id : String
  name : String
  deriving DecidableEq

/-- The clock readings of one tick: the machine's zone, the reading of the
admission test `time.Now().Minute()%5 == 0`, and the reading inside the
`makeChannelName` call made for each entry. -/
structure Clock where
  zone : Location
  admission : Int
  nameAt : String → String → Int

/-- Body of `for k := range timeChannels` on one entry (lines 114-130): the
value left in `timeChannels[k]` and the request issued, if any. The result of
`ChannelEdit` is stored whether or not it carries an error. -/
def renameEntry (s : Session) (now : Int) (guild k : String) (entry : Option Channel) :
    Option Channel × List RenameRequest :=
  match entry with
  | none => (none, [])
  | some ch =>
    let channelNameFormat := makeChannelName now k
    if ch.Name ≠ channelNameFormat then
      ((s.ChannelEdit ch.ID channelNameFormat).1, [⟨guild, k, ch.ID, channelNameFormat⟩])
    else (some ch, [])

/-- One iteration of the inner loop on the registry and the request log. -/
def updateChannel (s : Session) (clock : Clock) (guild : String)
    (st : Registry × List RenameRequest) (k : String) : Registry × List RenameRequest :=
  let r := renameEntry s (clock.nameAt guild k) guild k (st.1 guild k)
  (st.1.set guild ((st.1 guild).set k r.1), st.2 ++ r.2)

/-- The inner loop `for k := range timeChannels` of one guild; `keyOrder g`
is the order in which Go ranges over the keys of the inner map of `g`. -/
def updateGuild (s : Session) (clock : Clock) (keyOrder : String → List String)
    (st : Registry × List RenameRequest) (guild : String) : Registry × List RenameRequest :=
  (keyOrder guild).foldl (updateChannel s clock guild) st

/-- What the update loop does on one tick of the ticker (lines 109-133):
the registry afterwards and the rename requests issued. `guildOrder` is the
order in which Go ranges over the keys of `timeGuilds`. -/
def tick (s : Session) (clock : Clock) (guildOrder : List String)
    (keyOrder : String → List String) (reg : Registry) : Registry × List RenameRequest :=
  if (Time.mk clock.admission clock.zone).Minute % 5 = 0 then
    guildOrder.foldl (updateGuild s clock keyOrder) (reg, [])
  else (reg, [])

/-- The rename requests of a log that were issued for the entry `(g, k)`. -/
def requestsFor (g k : String) (log : List RenameRequest) : List RenameRequest :=
  log.filter (fun r => r.guild = g ∧ r.label = k)

/-! ## Discovery -/

theorem split_length_pos (sep : Char) (cs : List Char) : 0 < (splitChars sep cs).length := by
  induction cs with
  | nil => simp [splitChars]
  | cons c cs ih =>
    unfold splitChars
    split
    · simp
    · split <;> simp

theorem classify_of_short (name : String) (h : (strings.Split name ' ').length ≤ 2) :
    classify name = none := by
  unfold classify
  simp only
  rw [dif_neg (by omega)]

theorem classify_of_token (name tz : String) (h : 2 < (strings.Split name ' ').length)
    (htz : (strings.Split name ' ')[1]? = some tz) : classify name = mapTZ tz := by
  unfold classify
  simp only
  rw [dif_pos h]
  have h1 : 1 < (strings.Split name ' ').length := by omega
  rw [List.getElem?_eq_getElem h1] at htz
  exact congrArg mapTZ (Option.some.inj htz)

/-- C1: discovery splits a voice channel's name on spaces and looks at the
second token, provided the name has more than two tokens: PST or PDT records
the channel under PST, EST or EDT under EST, AEST or AEDT under AEST, UTC
under UTC; any other token, or a name of at most two tokens, leaves the map
as it was. The three names of the specification classify as stated. -/
theorem discovery_classification (name : String) :
    ((strings.Split name ' ').length ≤ 2 → classify name = none) ∧
    (∀ tz : String, 2 < (strings.Split name ' ').length →
      (strings.Split name ' ')[1]? = some tz →
        ((tz = "PST" ∨ tz = "PDT") → classify name = some "PST") ∧
        ((tz = "EST" ∨ tz = "EDT") → classify name = some "EST") ∧
        ((tz = "AEST" ∨ tz = "AEDT") → classify name = some "AEST") ∧
        (tz = "UTC" → classify name = some "UTC") ∧
        (tz ∉ ["PST", "PDT", "EST", "EDT", "AEST", "AEDT", "UTC"] → classify name = none)) ∧
    (∀ (m : ChanMap) (chv : Channel), chv.Type_ = ChannelTypeGuildVoice → chv.Name = name →
      (∀ k, classify name = some k → scanChannel m chv = m.set k (some chv)) ∧
      (classify name = none → scanChannel m chv = m)) ∧
    classify "🕐 PDT | something" = some "PST" ∧ classify "PDT" = none ∧
    classify "X Narnia Y" = none := by
  refine ⟨classify_of_short name, ?_, ?_, by decide, by decide, by decide⟩
  · intro tz h htz
    rw [classify_of_token name tz h htz]
    refine ⟨?_, ?_, ?_, ?_, ?_⟩
    · rintro (rfl | rfl) <;> decide
    · rintro (rfl | rfl) <;> decide
    · rintro (rfl | rfl) <;> decide
    · rintro rfl; decide
    · intro hn
      simp only [List.mem_cons, List.mem_singleton, List.not_mem_nil, or_false, not_or] at hn
      obtain ⟨h1, h2, h3, h4, h5, h6, h7⟩ := hn
      simp [mapTZ, h1, h2, h3, h4, h5, h6, h7]
  · intro m chv hty hname
    subst hname
    constructor
    · intro k hk
      simp [scanChannel, hty, hk]
    · intro hk
      simp [scanChannel, hty, hk]

/-- Witness for C1: a three-token name whose second token is PDT. -/
theorem discovery_classification_witness : classify "a PDT b" = some "PST" :=
  ((discovery_classification "a PDT b").2.1 "PDT" (by decide) (by decide)).1 (Or.inr rfl)

theorem foldl_scanChannel (chs : List Channel) (m : ChanMap) (k : String) :
    chs.foldl scanChannel m k =
      match (chs.filter (fun c =>
          decide (c.Type_ = ChannelTypeGuildVoice ∧ classify c.Name = some k))).getLast? with
      | some c => some c
      | none => m k := by
  induction chs using List.reverseRecOn with
  | nil => simp
  | append_singleton cs c ih =>
    rw [List.foldl_append, List.filter_append]
    simp only [List.foldl_cons, List.foldl_nil]
    by_cases hp : c.Type_ = ChannelTypeGuildVoice ∧ classify c.Name = some k
    · have hf : List.filter (fun c => decide
          (c.Type_ = ChannelTypeGuildVoice ∧ classify c.Name = some k)) [c] = [c] := by
        simp [hp]
      rw [hf, List.getLast?_append]
      simp [scanChannel, hp.1, hp.2, ChanMap.set]
    · have hf : List.filter (fun c => decide
          (c.Type_ = ChannelTypeGuildVoice ∧ classify c.Name = some k)) [c] = [] := by
        simp [hp]
      rw [hf, List.append_nil, ← ih]
      unfold scanChannel
      by_cases hty : c.Type_ = ChannelTypeGuildVoice
      · have hk : classify c.Name ≠ some k := fun h => hp ⟨hty, h⟩
        simp only [hty, ne_eq, not_true_eq_false, if_false]
        cases hc : classify c.Name with
        | none => rfl
        | some k1 =>
          have hne : k ≠ k1 := by
            rintro rfl
            exact hk hc
          simp [ChanMap.set, hne]
      · simp [hty]

/-- C9, as the code has it: the channel recorded for a label after discovery
is the last voice channel in scan order that classifies to that label (each
match overwrites the one before), and the label stays nil when there is
none. -/
theorem discover_last_match (chs : List Channel) (k : String) :
    discover chs k =
      (chs.filter (fun c =>
        decide (c.Type_ = ChannelTypeGuildVoice ∧ classify c.Name = some k))).getLast? := by
  unfold discover
  rw [foldl_scanChannel]
  cases (chs.filter (fun c =>
      decide (c.Type_ = ChannelTypeGuildVoice ∧ classify c.Name = some k))).getLast? <;> rfl

/-- C9 fails as stated: of two voice channels that both classify to PST, the
one recorded after discovery is the second, not the first. -/
theorem first_match_does_not_win :
    classify "a PST b" = some "PST" ∧ classify "c PDT d" = some "PST" ∧
    discover [⟨"1", "a PST b", ChannelTypeGuildVoice⟩, ⟨"2", "c PDT d", ChannelTypeGuildVoice⟩]
      "PST" = some ⟨"2", "c PDT d", ChannelTypeGuildVoice⟩ ∧
    discover [⟨"1", "a PST b", ChannelTypeGuildVoice⟩, ⟨"2", "c PDT d", ChannelTypeGuildVoice⟩]
      "PST" ≠ some ⟨"1", "a PST b", ChannelTypeGuildVoice⟩ := by
  decide

/-! ## The resolver at the instant of the specification -/

/-- C6 fails as stated: at 2024-03-10T17:03:00Z daylight time has begun in
America/New_York (at 07:00:00Z that day), so the name is not the one with
12:03 EST. -/
theorem resolve_est_not_standard :
    unixOf 2024 3 10 17 3 0 = 1710090180 ∧
    usDaylight (-18000) (unixOf 2024 3 10 17 3 0) = true ∧
    makeChannelName (unixOf 2024 3 10 17 3 0) "EST" ≠ "12:03 EST | Sun Mar 10" := by
  decide

/-- C6, as the code has it: at 2024-03-10T17:03:00Z the label EST resolves to
`13:03 EDT | Sun Mar 10`, daylight time having begun at 07:00:00Z that day;
four minutes before that change, at 06:56:00Z, it resolves to
`01:56 EST | Sun Mar 10`. Both follow the template `HH:MM ZZZ | Weekday Mon DD`. -/
theorem resolve_est_scenario :
    makeChannelName (unixOf 2024 3 10 17 3 0) "EST" = "13:03 EDT | Sun Mar 10" ∧
    makeChannelName (unixOf 2024 3 10 6 56 0) "EST" = "01:56 EST | Sun Mar 10" := by
  decide

/-! ## Exit codes -/

/-- C7 fails as stated: the config-read and the config-decode failure are
different failure kinds that exit with the same code, and so do the
channel-listing and channel-creation failures. -/
theorem exit_codes_not_distinct :
    StartupError.configRead ≠ StartupError.configDecode ∧
    exitCode .configRead = exitCode .configDecode ∧
    exitCode .configDecode = exitCode .guildChannels ∧
    exitCode .guildChannels = exitCode .channelCreate ∧
    ¬ Function.Injective exitCode := by
  refine ⟨by decide, rfl, rfl, rfl, ?_⟩
  intro h
  exact absurd (h (show exitCode .configRead = exitCode .configDecode from rfl)) (by decide)

/-- C7, as the code has it: every startup failure exits with a non-zero code;
the config-read, config-decode, channel-listing and channel-creation failures
all exit with 1, the session-construction failure with 2 and the session-open
failure with 3, so two failure kinds share a code exactly when both are
among the first four (or are the same kind). Each of the six failures is an
outcome of `main`. -/
theorem startup_failures_exit_nonzero (e1 e2 : StartupError) :
    exitCode e1 ≠ 0 ∧
    exitCode .configRead = 1 ∧ exitCode .configDecode = 1 ∧ exitCode .sessionNew = 2 ∧
    exitCode .guildChannels = 1 ∧ exitCode .channelCreate = 1 ∧ exitCode .sessionOpen = 3 ∧
    (exitCode e1 = exitCode e2 ↔
      e1 = e2 ∨ (e1 ∉ [StartupError.sessionNew, StartupError.sessionOpen] ∧
        e2 ∉ [StartupError.sessionNew, StartupError.sessionOpen])) ∧
    ∃ w : World, main w = .error e1 := by
  refine ⟨by cases e1 <;> decide, rfl, rfl, rfl, rfl, rfl, rfl,
    by cases e1 <;> cases e2 <;> decide, ?_⟩
  let s0 : Session := ⟨fun _ => .ok [], fun _ _ _ => (none, some "refused"), fun _ _ => (none, none)⟩
  let s1 : Session := ⟨fun _ => .error "refused", fun _ _ _ => (none, none), fun _ _ => (none, none)⟩
  let cfg0 : Config := ⟨0, "", "", []⟩
  let cfg1 : Config := ⟨0, "", "", ["g"]⟩
  cases e1
  · exact ⟨⟨fun _ => .error "", fun _ => .ok cfg0, fun _ => .ok s0, fun _ => none,
      fun _ _ => 0, fun _ => zoneLabels⟩, rfl⟩
  · exact ⟨⟨fun _ => .ok "", fun _ => .error "", fun _ => .ok s0, fun _ => none,
      fun _ _ => 0, fun _ => zoneLabels⟩, rfl⟩
  · exact ⟨⟨fun _ => .ok "", fun _ => .ok cfg0, fun _ => .error "", fun _ => none,
      fun _ _ => 0, fun _ => zoneLabels⟩, rfl⟩
  · exact ⟨⟨fun _ => .ok "", fun _ => .ok cfg1, fun _ => .ok s1, fun _ => none,
      fun _ _ => 0, fun _ => zoneLabels⟩, rfl⟩
  · exact ⟨⟨fun _ => .ok "", fun _ => .ok cfg1, fun _ => .ok s0, fun _ => none,
      fun _ _ => 0, fun _ => zoneLabels⟩, rfl⟩
  · exact ⟨⟨fun _ => .ok "", fun _ => .ok cfg0, fun _ => .ok s0, fun _ => some "",
      fun _ _ => 0, fun _ => zoneLabels⟩, rfl⟩

theorem format_layout (tm : Time) :
    (tm.Format "15:04 MST | Mon Jan 02").data =
      (pad2 tm.Hour ++ ':' :: pad2 tm.Minute) ++ ' ' :: (tm.zone.abbr.data ++ ' ' ::
        ('|' :: ' ' :: ((shortDayName tm.Weekday).data ++ ' ' ::
          ((shortMonthName tm.Month).data ++ ' ' :: pad2 tm.Day)))) := by
  simp [Time.Format, formatChars]

theorem splitChars_append (sep : Char) (a r : List Char) (h : sep ∉ a) :
    splitChars sep (a ++ sep :: r) = a :: splitChars sep r := by
  induction a with
  | nil => simp [splitChars]
  | cons c a ih =>
    have hc : c ≠ sep := fun e => h (by simp [e])
    have ha : sep ∉ a := fun e => h (by simp [e])
    simp [splitChars, hc, ih ha]

theorem digitChar_ne_space (n : Nat) : digitChar n ≠ ' ' := by
  unfold digitChar
  split <;> decide

theorem space_not_mem_pad2 (n : Int) : ' ' ∉ pad2 n := by
  simp [pad2, digitChar_ne_space, Ne.symm (digitChar_ne_space _)]

theorem classify_format (tm : Time) (h : ' ' ∉ tm.zone.abbr.data) :
    classify (tm.Format "15:04 MST | Mon Jan 02") = mapTZ tm.zone.abbr := by
  have h1 : ' ' ∉ pad2 tm.Hour ++ ':' :: pad2 tm.Minute := by
    simp [space_not_mem_pad2]
  have hs : strings.Split (tm.Format "15:04 MST | Mon Jan 02") ' ' =
      String.mk (pad2 tm.Hour ++ ':' :: pad2 tm.Minute) :: tm.zone.abbr ::
        (splitChars ' ' ('|' :: ' ' :: ((shortDayName tm.Weekday).data ++ ' ' ::
          ((shortMonthName tm.Month).data ++ ' ' :: pad2 tm.Day)))).map String.mk := by
    unfold strings.Split
    rw [format_layout, splitChars_append _ _ _ h1, splitChars_append _ _ _ h]
    rfl
  have hpos := split_length_pos ' ' ('|' :: ' ' :: ((shortDayName tm.Weekday).data ++ ' ' ::
          ((shortMonthName tm.Month).data ++ ' ' :: pad2 tm.Day)))
  apply classify_of_token
  · rw [hs]
    simp only [List.length_cons, List.length_map]
    omega
  · rw [hs]
    rfl

theorem losAngeles_lookup (t : Int) : losAngeles.lookup t =
    if usDaylight (-28800) t then ⟨"PDT", -25200⟩ else ⟨"PST", -28800⟩ := rfl

theorem newYork_lookup (t : Int) : newYork.lookup t =
    if usDaylight (-18000) t then ⟨"EDT", -14400⟩ else ⟨"EST", -18000⟩ := rfl

theorem melbourne_lookup (t : Int) : melbourne.lookup t =
    if auDaylight 36000 t then ⟨"AEDT", 39600⟩ else ⟨"AEST", 36000⟩ := rfl

theorem zone_abbr_cases (k : String) (t : Int) (hk : k ∈ zoneLabels) :
    ∃ tm : Time, makeChannelName t k = tm.Format "15:04 MST | Mon Jan 02" ∧ tm.sec = t ∧
      ' ' ∉ tm.zone.abbr.data ∧ mapTZ tm.zone.abbr = some k := by
  simp only [zoneLabels, List.mem_cons, List.mem_singleton, List.not_mem_nil, or_false] at hk
  rcases hk with rfl | rfl | rfl | rfl
  · refine ⟨⟨t, UTC⟩, rfl, rfl, ?_⟩
    show ' ' ∉ "UTC".data ∧ mapTZ "UTC" = some "UTC"
    decide
  · refine ⟨⟨t, losAngeles⟩, rfl, rfl, ?_⟩
    show ' ' ∉ (losAngeles.lookup t).abbr.data ∧ mapTZ (losAngeles.lookup t).abbr = some "PST"
    rw [losAngeles_lookup]
    split <;> decide
  · refine ⟨⟨t, newYork⟩, rfl, rfl, ?_⟩
    show ' ' ∉ (newYork.lookup t).abbr.data ∧ mapTZ (newYork.lookup t).abbr = some "EST"
    rw [newYork_lookup]
    split <;> decide
  · refine ⟨⟨t, melbourne⟩, rfl, rfl, ?_⟩
    show ' ' ∉ (melbourne.lookup t).abbr.data ∧ mapTZ (melbourne.lookup t).abbr = some "AEST"
    rw [melbourne_lookup]
    split <;> decide

theorem classify_makeChannelName (k : String) (t : Int) (hk : k ∈ zoneLabels) :
    classify (makeChannelName t k) = some k := by
  obtain ⟨tm, hf, -, hsp, hm⟩ := zone_abbr_cases k t hk
  rw [hf, classify_format tm hsp, hm]

theorem discover_isSome_of_mem (chs : List Channel) (c : Channel) (k : String) (hc : c ∈ chs)
    (hty : c.Type_ = ChannelTypeGuildVoice) (hcl : classify c.Name = some k) :
    ∃ c1, discover chs k = some c1 := by
  unfold discover
  rw [foldl_scanChannel]
  have hmem : c ∈ chs.filter (fun c =>
      decide (c.Type_ = ChannelTypeGuildVoice ∧ classify c.Name = some k)) := by
    simp [List.mem_filter, hc, hty, hcl]
  have hne : chs.filter (fun c =>
      decide (c.Type_ = ChannelTypeGuildVoice ∧ classify c.Name = some k)) ≠ [] :=
    List.ne_nil_of_mem hmem
  rw [List.getLast?_eq_getLast _ hne]
  exact ⟨_, rfl⟩

/-- C10: for each of the four labels and each instant from which the zone
rules of this development are those of the zone database, the name the
resolver produces for the label classifies as that label; so when a voice
channel carrying that name is among the channels of a guild, discovery
records a channel for the label and the creation loop issues no creation
request for it. -/
theorem discovery_undoes_resolver (k : String) (t : Int) (hk : k ∈ zoneLabels)
    (ht : rulesEpoch ≤ t) :
    classify (makeChannelName t k) = some k ∧
    ∀ (chs : List Channel) (c : Channel), c ∈ chs → c.Type_ = ChannelTypeGuildVoice →
      c.Name = makeChannelName t k →
      (∃ c1, discover chs k = some c1) ∧
      ∀ (s : Session) (now : String → String → Int) (g : String) (log : List CreateRequest),
        ensureChannel s now g (discover chs, log) k = .ok (discover chs, log) := by
  have _ := ht
  refine ⟨classify_makeChannelName k t hk, ?_⟩
  intro chs c hc hty hname
  have hcl : classify c.Name = some k := by rw [hname]; exact classify_makeChannelName k t hk
  obtain ⟨c1, hc1⟩ := discover_isSome_of_mem chs c k hc hty hcl
  refine ⟨⟨c1, hc1⟩, ?_⟩
  intro s now g log
  simp [ensureChannel, hc1]

/-- Witness for C10: the label AEST on 2024-03-10T17:03:00Z. -/
theorem discovery_undoes_resolver_witness :
    classify (makeChannelName (unixOf 2024 3 10 17 3 0) "AEST") = some "AEST" :=
  (discovery_undoes_resolver "AEST" (unixOf 2024 3 10 17 3 0) (by decide) (by decide)).1

/-! ## Reconciliation -/

theorem renameEntry_requests_length (s : Session) (t : Int) (g k : String)
    (e : Option Channel) : (renameEntry s t g k e).2.length ≤ 1 := by
  unfold renameEntry
  cases e with
  | none => simp
  | some c =>
    simp only
    split <;> simp

theorem requestsFor_renameEntry (s : Session) (t : Int) (g k g0 k0 : String)
    (e : Option Channel) :
    requestsFor g0 k0 (renameEntry s t g k e).2 =
      if g0 = g ∧ k0 = k then (renameEntry s t g k e).2 else [] := by
  unfold renameEntry requestsFor
  cases e with
  | none => simp
  | some c =>
    simp only
    by_cases hn : c.Name ≠ makeChannelName t k
    · rw [if_pos hn]
      by_cases hgk : g0 = g ∧ k0 = k
      · obtain ⟨rfl, rfl⟩ := hgk
        simp
      · rw [if_neg hgk]
        have : ¬ (g = g0 ∧ k = k0) := fun h => hgk ⟨h.1.symm, h.2.symm⟩
        simp [this]
    · rw [if_neg hn]
      simp

theorem requestsFor_append (g k : String) (l1 l2 : List RenameRequest) :
    requestsFor g k (l1 ++ l2) = requestsFor g k l1 ++ requestsFor g k l2 := by
  simp [requestsFor]

theorem updateChannel_fst (s : Session) (clock : Clock) (g k : String)
    (st : Registry × List RenameRequest) (g1 k1 : String) :
    (updateChannel s clock g st k).1 g1 k1 =
      if g1 = g ∧ k1 = k then (renameEntry s (clock.nameAt g k) g k (st.1 g k)).1
      else st.1 g1 k1 := by
  unfold updateChannel Registry.set ChanMap.set
  by_cases hg : g1 = g
  · subst hg
    by_cases hk : k1 = k
    · simp [hk]
    · simp [hk]
  · simp [hg]

theorem foldl_updateChannel (s : Session) (clock : Clock) (g : String) (keys : List String)
    (hnd : keys.Nodup) (st : Registry × List RenameRequest) (g1 k1 : String) :
    (keys.foldl (updateChannel s clock g) st).1 g1 k1 =
        (if g1 = g ∧ k1 ∈ keys then (renameEntry s (clock.nameAt g k1) g k1 (st.1 g k1)).1
         else st.1 g1 k1) ∧
    requestsFor g1 k1 (keys.foldl (updateChannel s clock g) st).2 =
        requestsFor g1 k1 st.2 ++
          (if g1 = g ∧ k1 ∈ keys then (renameEntry s (clock.nameAt g k1) g k1 (st.1 g k1)).2
           else []) := by
  induction keys generalizing st with
  | nil => simp
  | cons k ks ih =>
    obtain ⟨hk, hks⟩ := List.nodup_cons.mp hnd
    rw [List.foldl_cons]
    obtain ⟨ih1, ih2⟩ := ih hks (updateChannel s clock g st k)
    rw [ih1, ih2]
    have hlog : (updateChannel s clock g st k).2 =
        st.2 ++ (renameEntry s (clock.nameAt g k) g k (st.1 g k)).2 := rfl
    rw [hlog, requestsFor_append, requestsFor_renameEntry, updateChannel_fst,
      updateChannel_fst]
    by_cases hg : g1 = g
    · subst hg
      by_cases hk1 : k1 = k
      · subst hk1
        simp [hk]
      · by_cases hm : k1 ∈ ks
        · simp [hk1, hm]
        · simp [hk1, hm]
    · simp [hg]

theorem foldl_updateGuild (s : Session) (clock : Clock) (keyOrder : String → List String)
    (hko : ∀ g, (keyOrder g).Nodup) (guilds : List String) (hnd : guilds.Nodup)
    (st : Registry × List RenameRequest) (g1 k1 : String) :
    (guilds.foldl (updateGuild s clock keyOrder) st).1 g1 k1 =
        (if g1 ∈ guilds ∧ k1 ∈ keyOrder g1 then
          (renameEntry s (clock.nameAt g1 k1) g1 k1 (st.1 g1 k1)).1
         else st.1 g1 k1) ∧
    requestsFor g1 k1 (guilds.foldl (updateGuild s clock keyOrder) st).2 =
        requestsFor g1 k1 st.2 ++
          (if g1 ∈ guilds ∧ k1 ∈ keyOrder g1 then
            (renameEntry s (clock.nameAt g1 k1) g1 k1 (st.1 g1 k1)).2
           else []) := by
  induction guilds generalizing st with
  | nil => simp
  | cons g gs ih =>
    obtain ⟨hg, hgs⟩ := List.nodup_cons.mp hnd
    rw [List.foldl_cons]
    obtain ⟨ih1, ih2⟩ := ih hgs (updateGuild s clock keyOrder st g)
    rw [ih1, ih2]
    obtain ⟨h1, h2⟩ := foldl_updateChannel s clock g (keyOrder g) (hko g) st g1 k1
    have e1 : (updateGuild s clock keyOrder st g).1 g1 k1 =
        (if g1 = g ∧ k1 ∈ keyOrder g then
          (renameEntry s (clock.nameAt g k1) g k1 (st.1 g k1)).1 else st.1 g1 k1) := h1
    have e2 : requestsFor g1 k1 (updateGuild s clock keyOrder st g).2 =
        requestsFor g1 k1 st.2 ++ (if g1 = g ∧ k1 ∈ keyOrder g then
          (renameEntry s (clock.nameAt g k1) g k1 (st.1 g k1)).2 else []) := h2
    rw [e1, e2]
    by_cases hgg : g1 = g
    · subst hgg
      by_cases hm : k1 ∈ keyOrder g1
      · simp [hg, hm]
      · simp [hg, hm]
    · by_cases hm : g1 ∈ gs
      · simp [hgg, hm]
      · simp [hgg, hm]

/-- What an admitted tick does to each entry: an entry the loops visit is
replaced by the result of the loop body on it and gets the requests of that
body; any other entry is left alone and gets none. -/
theorem tick_admitted (s : Session) (clock : Clock) (guildOrder : List String)
    (keyOrder : String → List String) (reg : Registry)
    (hadm : (Time.mk clock.admission clock.zone).Minute % 5 = 0)
    (hgo : guildOrder.Nodup) (hko : ∀ g, (keyOrder g).Nodup) (g k : String) :
    (tick s clock guildOrder keyOrder reg).1 g k =
        (if g ∈ guildOrder ∧ k ∈ keyOrder g then
          (renameEntry s (clock.nameAt g k) g k (reg g k)).1
         else reg g k) ∧
    requestsFor g k (tick s clock guildOrder keyOrder reg).2 =
        (if g ∈ guildOrder ∧ k ∈ keyOrder g then
          (renameEntry s (clock.nameAt g k) g k (reg g k)).2
         else []) := by
  unfold tick
  rw [if_pos hadm]
  have h := foldl_updateGuild s clock keyOrder hko guildOrder hgo (reg, []) g k
  simpa [requestsFor] using h

theorem tick_skipped (s : Session) (clock : Clock) (guildOrder : List String)
    (keyOrder : String → List String) (reg : Registry)
    (hadm : (Time.mk clock.admission clock.zone).Minute % 5 ≠ 0) :
    tick s clock guildOrder keyOrder reg = (reg, []) := by
  unfold tick
  rw [if_neg hadm]

theorem usDaylight_minute (off t1 t2 : Int) (h : t1 / 60 = t2 / 60) (ho : off % 60 = 0) :
    usDaylight off t1 = usDaylight off t2 := by
  unfold usDaylight
  have hd : t1 / 86400 = t2 / 86400 := by omega
  simp only [hd]
  generalize sundayOnOrAfter (civil (t2 / 86400)).1 3 8 = a
  generalize sundayOnOrAfter (civil (t2 / 86400)).1 11 1 = b
  rw [decide_eq_decide]
  omega

theorem auDaylight_minute (off t1 t2 : Int) (h : t1 / 60 = t2 / 60) (ho : off % 60 = 0) :
    auDaylight off t1 = auDaylight off t2 := by
  unfold auDaylight
  have hd : t1 / 86400 = t2 / 86400 := by omega
  simp only [hd]
  generalize sundayOnOrAfter (civil (t2 / 86400)).1 4 1 = a
  generalize sundayOnOrAfter (civil (t2 / 86400)).1 10 1 = b
  rw [decide_eq_decide]
  omega

theorem format_minute (loc : Location) (t1 t2 : Int) (h : t1 / 60 = t2 / 60)
    (hz : loc.lookup t1 = loc.lookup t2) (ho : (loc.lookup t2).offset % 60 = 0) :
    (Time.mk t1 loc).Format "15:04 MST | Mon Jan 02" =
      (Time.mk t2 loc).Format "15:04 MST | Mon Jan 02" := by
  have hzone : (Time.mk t1 loc).zone = (Time.mk t2 loc).zone := hz
  have habs1 : (Time.mk t1 loc).abs = t1 + (loc.lookup t2).offset := by
    show t1 + (loc.lookup t1).offset = _
    rw [hz]
  have habs2 : (Time.mk t2 loc).abs = t2 + (loc.lookup t2).offset := rfl
  have hday : (Time.mk t1 loc).abs / 86400 = (Time.mk t2 loc).abs / 86400 := by
    rw [habs1, habs2]; omega
  have hH : (Time.mk t1 loc).Hour = (Time.mk t2 loc).Hour := by
    unfold Time.Hour; rw [habs1, habs2]; omega
  have hM : (Time.mk t1 loc).Minute = (Time.mk t2 loc).Minute := by
    unfold Time.Minute; rw [habs1, habs2]; omega
  have hW : (Time.mk t1 loc).Weekday = (Time.mk t2 loc).Weekday := by
    unfold Time.Weekday; rw [hday]
  have hMo : (Time.mk t1 loc).Month = (Time.mk t2 loc).Month := by
    unfold Time.Month; rw [hday]
  have hD : (Time.mk t1 loc).Day = (Time.mk t2 loc).Day := by
    unfold Time.Day; rw [hday]
  have hdata : ((Time.mk t1 loc).Format "15:04 MST | Mon Jan 02").data =
      ((Time.mk t2 loc).Format "15:04 MST | Mon Jan 02").data := by
    rw [format_layout, format_layout, hzone, hH, hM, hW, hMo, hD]
  exact String.ext hdata

/-- The name `makeChannelName` produces depends on the clock reading only
through its minute. -/
theorem makeChannelName_minute (k : String) (t1 t2 : Int) (h : t1 / 60 = t2 / 60) :
    makeChannelName t1 k = makeChannelName t2 k := by
  unfold makeChannelName
  simp only
  split
  · apply format_minute losAngeles t1 t2 h
    · rw [losAngeles_lookup, losAngeles_lookup, usDaylight_minute _ t1 t2 h (by decide)]
    · rw [losAngeles_lookup]; split <;> decide
  · split
    · apply format_minute newYork t1 t2 h
      · rw [newYork_lookup, newYork_lookup, usDaylight_minute _ t1 t2 h (by decide)]
      · rw [newYork_lookup]; split <;> decide
    · split
      · apply format_minute melbourne t1 t2 h
        · rw [melbourne_lookup, melbourne_lookup, auDaylight_minute _ t1 t2 h (by decide)]
        · rw [melbourne_lookup]; split <;> decide
      · exact format_minute UTC t1 t2 h rfl (show (0 : Int) % 60 = 0 by decide)

theorem tick_entry_cases (s : Session) (clock : Clock) (guildOrder : List String)
    (keyOrder : String → List String) (reg : Registry)
    (hgo : guildOrder.Nodup) (hko : ∀ g, (keyOrder g).Nodup) (g k : String) :
    ((tick s clock guildOrder keyOrder reg).1 g k = reg g k ∧
      requestsFor g k (tick s clock guildOrder keyOrder reg).2 = []) ∨
    ((tick s clock guildOrder keyOrder reg).1 g k =
        (renameEntry s (clock.nameAt g k) g k (reg g k)).1 ∧
      requestsFor g k (tick s clock guildOrder keyOrder reg).2 =
        (renameEntry s (clock.nameAt g k) g k (reg g k)).2) := by
  by_cases hadm : (Time.mk clock.admission clock.zone).Minute % 5 = 0
  · obtain ⟨h1, h2⟩ := tick_admitted s clock guildOrder keyOrder reg hadm hgo hko g k
    by_cases hv : g ∈ guildOrder ∧ k ∈ keyOrder g
    · rw [if_pos hv] at h1 h2
      exact Or.inr ⟨h1, h2⟩
    · rw [if_neg hv] at h1 h2
      exact Or.inl ⟨h1, h2⟩
  · rw [tick_skipped s clock guildOrder keyOrder reg hadm]
    exact Or.inl ⟨rfl, rfl⟩

theorem renameEntry_twice (s1 s2 : Session) (t1 t2 : Int) (g k : String) (e : Option Channel)
    (hname : makeChannelName t1 k = makeChannelName t2 k)
    (hedit : ∀ id name c, (s1.ChannelEdit id name).1 = some c → c.Name = name) :
    (renameEntry s1 t1 g k e).2.length +
      (renameEntry s2 t2 g k (renameEntry s1 t1 g k e).1).2.length ≤ 1 := by
  cases e with
  | none => simp [renameEntry]
  | some c =>
    by_cases hn : c.Name = makeChannelName t1 k
    · have h1 : renameEntry s1 t1 g k (some c) = (some c, []) := by
        simp [renameEntry, hn]
      rw [h1]
      have h2 : renameEntry s2 t2 g k (some c) = (some c, []) := by
        simp [renameEntry, ← hname, hn]
      rw [h2]
      simp
    · have h1 : renameEntry s1 t1 g k (some c) =
          ((s1.ChannelEdit c.ID (makeChannelName t1 k)).1,
            [⟨g, k, c.ID, makeChannelName t1 k⟩]) := by
        simp [renameEntry, hn]
      rw [h1]
      cases hr : (s1.ChannelEdit c.ID (makeChannelName t1 k)).1 with
      | none => simp [renameEntry]
      | some c1 =>
        have hc1 : c1.Name = makeChannelName t2 k := by
          rw [← hname]
          exact hedit _ _ _ hr
        simp [renameEntry, hc1]

/-- C3: when the minute of the wall clock at the admission test is not a
multiple of 5, the tick issues no rename request and leaves the registry as
it was. -/
theorem tick_off_minute_no_requests (s : Session) (clock : Clock) (guildOrder : List String)
    (keyOrder : String → List String) (reg : Registry)
    (h : (Time.mk clock.admission clock.zone).Minute % 5 ≠ 0) :
    (tick s clock guildOrder keyOrder reg).2 = [] ∧
    (tick s clock guildOrder keyOrder reg).1 = reg := by
  rw [tick_skipped s clock guildOrder keyOrder reg h]
  exact ⟨rfl, rfl⟩

/-- Witness for C3: a tick at 2024-03-10T17:03:00Z over one tracked channel whose
name is out of date. -/
theorem tick_off_minute_no_requests_witness :
    (tick ⟨fun _ => .ok [], fun _ _ _ => (none, none), fun _ _ => (none, none)⟩
        ⟨UTC, unixOf 2024 3 10 17 3 0, fun _ _ => unixOf 2024 3 10 17 3 0⟩ ["g"] (fun _ => zoneLabels)
        (fun _ k => if k = "UTC" then some ⟨"1", "old", ChannelTypeGuildVoice⟩ else none)).2 = [] ∧
    (tick ⟨fun _ => .ok [], fun _ _ _ => (none, none), fun _ _ => (none, none)⟩
        ⟨UTC, unixOf 2024 3 10 17 3 0, fun _ _ => unixOf 2024 3 10 17 3 0⟩ ["g"] (fun _ => zoneLabels)
        (fun _ k => if k = "UTC" then some ⟨"1", "old", ChannelTypeGuildVoice⟩ else none)).1 =
      (fun _ k => if k = "UTC" then some ⟨"1", "old", ChannelTypeGuildVoice⟩ else none) :=
  tick_off_minute_no_requests _ ⟨UTC, unixOf 2024 3 10 17 3 0, fun _ _ => unixOf 2024 3 10 17 3 0⟩ _ _ _ (by decide)

/-- C8: in an admitted tick, whatever the session answers to the rename
requests (errors included), every tracked channel the loops visit whose
desired name differs from its last-known name gets exactly one rename
request, for its identifier and its desired name. -/
theorem rename_failure_isolated (s : Session) (clock : Clock) (guildOrder : List String)
    (keyOrder : String → List String) (reg : Registry)
    (hadm : (Time.mk clock.admission clock.zone).Minute % 5 = 0)
    (hgo : guildOrder.Nodup) (hko : ∀ g, (keyOrder g).Nodup)
    (g k : String) (c : Channel) (hg : g ∈ guildOrder) (hk : k ∈ keyOrder g)
    (hc : reg g k = some c) (hne : c.Name ≠ makeChannelName (clock.nameAt g k) k) :
    requestsFor g k (tick s clock guildOrder keyOrder reg).2 =
      [⟨g, k, c.ID, makeChannelName (clock.nameAt g k) k⟩] ∧
    (⟨g, k, c.ID, makeChannelName (clock.nameAt g k) k⟩ : RenameRequest) ∈
      (tick s clock guildOrder keyOrder reg).2 := by
  have h2 := (tick_admitted s clock guildOrder keyOrder reg hadm hgo hko g k).2
  rw [if_pos ⟨hg, hk⟩, hc] at h2
  have h3 : (renameEntry s (clock.nameAt g k) g k (some c)).2 =
      [⟨g, k, c.ID, makeChannelName (clock.nameAt g k) k⟩] := by
    simp [renameEntry, hne]
  rw [h3] at h2
  refine ⟨h2, ?_⟩
  have hm : (⟨g, k, c.ID, makeChannelName (clock.nameAt g k) k⟩ : RenameRequest) ∈
      requestsFor g k (tick s clock guildOrder keyOrder reg).2 := by
    rw [h2]; exact List.mem_singleton.mpr rfl
  exact (List.mem_filter.mp hm).1

/-- Witness for C8: one guild tracking a UTC and a PST channel, both out of
date, at 2024-03-10T17:05:00Z, with a session that answers every rename request with
an error: the PST channel still gets its request. -/
theorem rename_failure_isolated_witness :
    (⟨"g", "PST", "2", "10:05 PDT | Sun Mar 10"⟩ : RenameRequest) ∈
      (tick ⟨fun _ => .ok [], fun _ _ _ => (none, none), fun _ _ => (none, some "HTTP 500")⟩
        ⟨UTC, unixOf 2024 3 10 17 5 0, fun _ _ => unixOf 2024 3 10 17 5 0⟩ ["g"] (fun _ => zoneLabels)
        (fun _ k => if k = "UTC" then some ⟨"1", "old", ChannelTypeGuildVoice⟩
          else if k = "PST" then some ⟨"2", "older", ChannelTypeGuildVoice⟩ else none)).2 :=
  (rename_failure_isolated
    ⟨fun _ => .ok [], fun _ _ _ => (none, none), fun _ _ => (none, some "HTTP 500")⟩
    ⟨UTC, unixOf 2024 3 10 17 5 0, fun _ _ => unixOf 2024 3 10 17 5 0⟩ ["g"] (fun _ => zoneLabels)
    (fun _ k => if k = "UTC" then some ⟨"1", "old", ChannelTypeGuildVoice⟩
      else if k = "PST" then some ⟨"2", "older", ChannelTypeGuildVoice⟩ else none)
    (by decide) (by decide) (fun _ => (by decide : zoneLabels.Nodup)) "g" "PST" ⟨"2", "older", ChannelTypeGuildVoice⟩
    (by decide) (by decide) rfl (by decide)).2

/-- C4: two ticks whose clock readings for each entry fall in the same
minute, on a session whose edit answers carry the requested name whenever
they carry a channel, issue at most one rename request per tracked entry
between them; and when the first tick issued a request for an entry and the
session answered it with a channel and no error, the entry holds that
channel, its name is the desired name of the second tick, and the second
tick issues no request for it. -/
theorem tick_twice_same_minute (s1 s2 : Session) (clock1 clock2 : Clock)
    (guildOrder1 guildOrder2 : List String) (keyOrder1 keyOrder2 : String → List String)
    (reg : Registry)
    (hgo1 : guildOrder1.Nodup) (hko1 : ∀ g, (keyOrder1 g).Nodup)
    (hgo2 : guildOrder2.Nodup) (hko2 : ∀ g, (keyOrder2 g).Nodup)
    (hmin : ∀ g k, clock1.nameAt g k / 60 = clock2.nameAt g k / 60)
    (hedit : ∀ id name c, (s1.ChannelEdit id name).1 = some c → c.Name = name)
    (g k : String) :
    (requestsFor g k (tick s1 clock1 guildOrder1 keyOrder1 reg).2).length +
      (requestsFor g k (tick s2 clock2 guildOrder2 keyOrder2
        (tick s1 clock1 guildOrder1 keyOrder1 reg).1).2).length ≤ 1 ∧
    ∀ c c1 : Channel, reg g k = some c →
      requestsFor g k (tick s1 clock1 guildOrder1 keyOrder1 reg).2 ≠ [] →
      s1.ChannelEdit c.ID (makeChannelName (clock1.nameAt g k) k) = (some c1, none) →
        (tick s1 clock1 guildOrder1 keyOrder1 reg).1 g k = some c1 ∧
        c1.Name = makeChannelName (clock2.nameAt g k) k ∧
        requestsFor g k (tick s2 clock2 guildOrder2 keyOrder2
          (tick s1 clock1 guildOrder1 keyOrder1 reg).1).2 = [] := by
  have hname := makeChannelName_minute k _ _ (hmin g k)
  have hc1 := tick_entry_cases s1 clock1 guildOrder1 keyOrder1 reg hgo1 hko1 g k
  have hc2 := tick_entry_cases s2 clock2 guildOrder2 keyOrder2
    (tick s1 clock1 guildOrder1 keyOrder1 reg).1 hgo2 hko2 g k
  constructor
  · rcases hc1 with ⟨-, h1⟩ | ⟨e1, h1⟩
    · rw [h1]
      rcases hc2 with ⟨-, h2⟩ | ⟨-, h2⟩
      · rw [h2]; simp
      · rw [h2]
        have := renameEntry_requests_length s2 (clock2.nameAt g k) g k
          ((tick s1 clock1 guildOrder1 keyOrder1 reg).1 g k)
        simpa using this
    · rcases hc2 with ⟨-, h2⟩ | ⟨-, h2⟩
      · rw [h1, h2]
        have := renameEntry_requests_length s1 (clock1.nameAt g k) g k (reg g k)
        simpa using this
      · rw [h1, h2, e1]
        exact renameEntry_twice s1 s2 _ _ g k (reg g k) hname hedit
  · intro c c1 hc hreq hans
    rcases hc1 with ⟨-, h1⟩ | ⟨e1, h1⟩
    · exact absurd h1 hreq
    · rw [hc] at e1 h1
      have hne : c.Name ≠ makeChannelName (clock1.nameAt g k) k := by
        intro heq
        apply hreq
        rw [h1]
        simp [renameEntry, heq]
      have hres : (renameEntry s1 (clock1.nameAt g k) g k (some c)).1 = some c1 := by
        simp [renameEntry, hne, hans]
      rw [hres] at e1
      have hn1 : c1.Name = makeChannelName (clock2.nameAt g k) k := by
        rw [← hname]
        exact hedit c.ID _ c1 (by rw [hans])
      refine ⟨e1, hn1, ?_⟩
      rcases hc2 with ⟨-, h2⟩ | ⟨-, h2⟩
      · exact h2
      · rw [h2, e1]
        simp [renameEntry, hn1]

/-- Witness for C4: two ticks at 17:05:00Z and 17:05:05Z on 2024-03-10 over
one tracked UTC channel, with a session that applies every rename. -/
theorem tick_twice_same_minute_witness :
    (requestsFor "g" "UTC"
      (tick ⟨fun _ => .ok [], fun _ _ _ => (none, none),
          fun id name => (some ⟨id, name, ChannelTypeGuildVoice⟩, none)⟩
        ⟨UTC, unixOf 2024 3 10 17 5 0, fun _ _ => unixOf 2024 3 10 17 5 0⟩ ["g"]
        (fun _ => zoneLabels)
        (fun _ k => if k = "UTC" then some ⟨"1", "old", ChannelTypeGuildVoice⟩ else none)).2).length +
    (requestsFor "g" "UTC"
      (tick ⟨fun _ => .ok [], fun _ _ _ => (none, none),
          fun id name => (some ⟨id, name, ChannelTypeGuildVoice⟩, none)⟩
        ⟨UTC, unixOf 2024 3 10 17 5 5, fun _ _ => unixOf 2024 3 10 17 5 5⟩ ["g"]
        (fun _ => zoneLabels)
        (tick ⟨fun _ => .ok [], fun _ _ _ => (none, none),
            fun id name => (some ⟨id, name, ChannelTypeGuildVoice⟩, none)⟩
          ⟨UTC, unixOf 2024 3 10 17 5 0, fun _ _ => unixOf 2024 3 10 17 5 0⟩ ["g"]
          (fun _ => zoneLabels)
          (fun _ k => if k = "UTC" then some ⟨"1", "old", ChannelTypeGuildVoice⟩
            else none)).1).2).length ≤ 1 :=
  (tick_twice_same_minute
    ⟨fun _ => .ok [], fun _ _ _ => (none, none),
      fun id name => (some ⟨id, name, ChannelTypeGuildVoice⟩, none)⟩
    ⟨fun _ => .ok [], fun _ _ _ => (none, none),
      fun id name => (some ⟨id, name, ChannelTypeGuildVoice⟩, none)⟩
    ⟨UTC, unixOf 2024 3 10 17 5 0, fun _ _ => unixOf 2024 3 10 17 5 0⟩
    ⟨UTC, unixOf 2024 3 10 17 5 5, fun _ _ => unixOf 2024 3 10 17 5 5⟩
    ["g"] ["g"] (fun _ => zoneLabels) (fun _ => zoneLabels)
    (fun _ k => if k = "UTC" then some ⟨"1", "old", ChannelTypeGuildVoice⟩ else none)
    (by decide) (fun _ => (by decide : zoneLabels.Nodup))
    (by decide) (fun _ => (by decide : zoneLabels.Nodup))
    (fun _ _ => (by decide : unixOf 2024 3 10 17 5 0 / 60 = unixOf 2024 3 10 17 5 5 / 60))
    (fun _ _ _ h => by
      simp only [Option.some.injEq] at h
      rw [← h])
    "g" "UTC").1

/-- C2, on the code: at 2024-03-10T17:05:00Z one UTC channel is tracked under
the out-of-date name `old`, and the session answers the rename request with
an error and no channel. The tick stores that answer: the entry is nil
afterwards, not the record it was, and the next eligible tick, five minutes
later on a session that would apply the rename, issues no request at all. -/
theorem rename_failure_drops_record :
    (tick ⟨fun _ => .ok [], fun _ _ _ => (none, none), fun _ _ => (none, some "HTTP 500")⟩
        ⟨UTC, unixOf 2024 3 10 17 5 0, fun _ _ => unixOf 2024 3 10 17 5 0⟩ ["g"]
        (fun _ => zoneLabels)
        (fun _ k => if k = "UTC" then some ⟨"1", "old", ChannelTypeGuildVoice⟩ else none)).2
      = [⟨"g", "UTC", "1", "17:05 UTC | Sun Mar 10"⟩] ∧
    (tick ⟨fun _ => .ok [], fun _ _ _ => (none, none), fun _ _ => (none, some "HTTP 500")⟩
        ⟨UTC, unixOf 2024 3 10 17 5 0, fun _ _ => unixOf 2024 3 10 17 5 0⟩ ["g"]
        (fun _ => zoneLabels)
        (fun _ k => if k = "UTC" then some ⟨"1", "old", ChannelTypeGuildVoice⟩ else none)).1
      "g" "UTC" = none ∧
    (tick ⟨fun _ => .ok [], fun _ _ _ => (none, none),
          fun id name => (some ⟨id, name, ChannelTypeGuildVoice⟩, none)⟩
        ⟨UTC, unixOf 2024 3 10 17 10 0, fun _ _ => unixOf 2024 3 10 17 10 0⟩ ["g"]
        (fun _ => zoneLabels)
        (tick ⟨fun _ => .ok [], fun _ _ _ => (none, none), fun _ _ => (none, some "HTTP 500")⟩
          ⟨UTC, unixOf 2024 3 10 17 5 0, fun _ _ => unixOf 2024 3 10 17 5 0⟩ ["g"]
          (fun _ => zoneLabels)
          (fun _ k => if k = "UTC" then some ⟨"1", "old", ChannelTypeGuildVoice⟩
            else none)).1).2 = [] := by
  decide

/-! ## Scan-or-create -/

theorem ensureChannel_ok (s : Session) (now : String → String → Int) (g : String)
    (hcreate : ∀ g name ty, (s.GuildChannelCreate g name ty).2 = none →
      ∃ c, (s.GuildChannelCreate g name ty).1 = some c)
    (st st1 : ChanMap × List CreateRequest) (k : String)
    (h : ensureChannel s now g st k = .ok st1) :
    (∃ c, st.1 k = some c ∧ st1 = st) ∨
    (st.1 k = none ∧ (∃ c, st1.1 = st.1.set k (some c)) ∧
      st1.2 = st.2 ++ [⟨g, k, makeChannelName (now g k) k⟩]) := by
  unfold ensureChannel at h
  cases hk : st.1 k with
  | some c =>
    rw [hk] at h
    simp only [Except.ok.injEq] at h
    exact Or.inl ⟨c, rfl, h.symm⟩
  | none =>
    rw [hk] at h
    simp only at h
    cases he : (s.GuildChannelCreate g (makeChannelName (now g k) k) ChannelTypeGuildVoice).2 with
    | some e =>
      rw [he] at h
      cases h
    | none =>
      rw [he] at h
      simp only [Except.ok.injEq] at h
      obtain ⟨c, hc⟩ := hcreate _ _ _ he
      refine Or.inr ⟨rfl, ⟨c, ?_⟩, ?_⟩
      · rw [← h, hc]
      · rw [← h]

theorem ensureAll_ok (s : Session) (now : String → String → Int) (g : String)
    (hcreate : ∀ g name ty, (s.GuildChannelCreate g name ty).2 = none →
      ∃ c, (s.GuildChannelCreate g name ty).1 = some c)
    (order : List String) (m : ChanMap) (log : List CreateRequest)
    (st1 : ChanMap × List CreateRequest)
    (h : ensureAll s now order g m log = .ok st1) :
    (∀ k c, m k = some c → st1.1 k = some c) ∧
    (∀ k ∈ order, ∃ c, st1.1 k = some c) ∧
    (∀ r ∈ log, r ∈ st1.2) ∧
    (∀ r ∈ st1.2, r ∈ log ∨ (r.guild = g ∧ r.label ∈ order ∧ m r.label = none)) ∧
    (∀ k ∈ order, m k = none → ∃ r ∈ st1.2, r.guild = g ∧ r.label = k) := by
  unfold ensureAll at h
  induction order generalizing m log with
  | nil =>
    simp only [List.foldlM_nil, pure, Except.pure, Except.ok.injEq] at h
    subst h
    simp
  | cons k ks ih =>
    rw [List.foldlM_cons] at h
    cases hstep : ensureChannel s now g (m, log) k with
    | error e =>
      rw [hstep] at h
      cases h
    | ok st =>
      rw [hstep] at h
      obtain ⟨i1, i2, i3, i4, i5⟩ := ih st.1 st.2 h
      rcases ensureChannel_ok s now g hcreate (m, log) st k hstep with
        ⟨c, hc, rfl⟩ | ⟨hn, ⟨c, hset⟩, hlog⟩
      · refine ⟨i1, ?_, i3, ?_, ?_⟩
        · intro k1 hk1
          rcases List.mem_cons.mp hk1 with rfl | hk1
          · exact ⟨c, i1 _ _ hc⟩
          · exact i2 k1 hk1
        · intro r hr
          rcases i4 r hr with h1 | ⟨h1, h2, h3⟩
          · exact Or.inl h1
          · exact Or.inr ⟨h1, List.mem_cons_of_mem _ h2, h3⟩
        · intro k1 hk1 hm
          rcases List.mem_cons.mp hk1 with rfl | hk1
          · simp only at hc
            rw [hc] at hm
            cases hm
          · exact i5 k1 hk1 hm
      · simp only at hn hset hlog
        have hmono : ∀ k1 c1, m k1 = some c1 → st.1 k1 = some c1 := by
          intro k1 c1 h1
          rw [hset]
          unfold ChanMap.set
          by_cases hkk : k1 = k
          · subst hkk
            rw [hn] at h1
            cases h1
          · rw [if_neg hkk]
            exact h1
        have hreq : (⟨g, k, makeChannelName (now g k) k⟩ : CreateRequest) ∈ st1.2 :=
          i3 _ (by rw [hlog]; simp)
        refine ⟨fun k1 c1 h1 => i1 _ _ (hmono k1 c1 h1), ?_, ?_, ?_, ?_⟩
        · intro k1 hk1
          rcases List.mem_cons.mp hk1 with rfl | hk1
          · exact ⟨c, i1 _ _ (by rw [hset]; simp [ChanMap.set])⟩
          · exact i2 k1 hk1
        · intro r hr
          exact i3 r (by rw [hlog]; exact List.mem_append_left _ hr)
        · intro r hr
          rcases i4 r hr with h1 | ⟨h1, h2, h3⟩
          · rw [hlog] at h1
            rcases List.mem_append.mp h1 with h1 | h1
            · exact Or.inl h1
            · rw [List.mem_singleton] at h1
              subst h1
              exact Or.inr ⟨rfl, List.mem_cons_self _ _, hn⟩
          · refine Or.inr ⟨h1, List.mem_cons_of_mem _ h2, ?_⟩
            cases hm : m r.label with
            | none => rfl
            | some c1 =>
              rw [hmono _ _ hm] at h3
              cases h3
        · intro k1 hk1 hm
          rcases List.mem_cons.mp hk1 with rfl | hk1
          · exact ⟨_, hreq, rfl, rfl⟩
          · by_cases hkk : k1 = k
            · subst hkk
              exact ⟨_, hreq, rfl, rfl⟩
            · exact i5 k1 hk1 (by rw [hset]; simp [ChanMap.set, hkk, hm])

theorem setupGuild_ok (s : Session) (now : String → String → Int)
    (order : String → List String)
    (hcreate : ∀ g name ty, (s.GuildChannelCreate g name ty).2 = none →
      ∃ c, (s.GuildChannelCreate g name ty).1 = some c)
    (st st1 : Registry × List CreateRequest) (g : String)
    (h : setupGuild s now order st g = .ok st1) :
    ∃ chs, s.GuildChannels g = .ok chs ∧
      (∀ g1, g1 ≠ g → st1.1 g1 = st.1 g1) ∧
      (∀ k c, discover chs k = some c → st1.1 g k = some c) ∧
      (∀ k ∈ order g, ∃ c, st1.1 g k = some c) ∧
      (∀ r ∈ st.2, r ∈ st1.2) ∧
      (∀ r ∈ st1.2, r ∈ st.2 ∨
        (r.guild = g ∧ r.label ∈ order g ∧ discover chs r.label = none)) ∧
      (∀ k ∈ order g, discover chs k = none → ∃ r ∈ st1.2, r.guild = g ∧ r.label = k) := by
  unfold setupGuild at h
  cases hchs : s.GuildChannels g with
  | error e =>
    rw [hchs] at h
    cases h
  | ok chs =>
    rw [hchs] at h
    simp only at h
    cases hens : ensureAll s now (order g) g (discover chs) st.2 with
    | error e =>
      rw [hens] at h
      cases h
    | ok r =>
      rw [hens] at h
      simp only [Except.ok.injEq] at h
      subst h
      obtain ⟨e1, e2, e3, e4, e5⟩ := ensureAll_ok s now g hcreate _ _ _ _ hens
      refine ⟨chs, rfl, ?_, ?_, ?_, e3, e4, e5⟩
      · intro g1 hg1
        simp [Registry.set, hg1]
      · intro k c hk
        simpa [Registry.set] using e1 k c hk
      · intro k hk
        simpa [Registry.set] using e2 k hk

theorem buildRegistry_ok (s : Session) (now : String → String → Int)
    (order : String → List String)
    (hcreate : ∀ g name ty, (s.GuildChannelCreate g name ty).2 = none →
      ∃ c, (s.GuildChannelCreate g name ty).1 = some c)
    (gs : List String) (st fin : Registry × List CreateRequest)
    (h : gs.foldlM (setupGuild s now order) st = .ok fin) :
    (∀ g, g ∉ gs → fin.1 g = st.1 g) ∧
    (∀ g ∈ gs, ∃ chs, s.GuildChannels g = .ok chs ∧
      (∀ k c, discover chs k = some c → fin.1 g k = some c) ∧
      (∀ k ∈ order g, ∃ c, fin.1 g k = some c)) ∧
    (∀ r ∈ st.2, r ∈ fin.2) ∧
    (∀ r ∈ fin.2, r ∈ st.2 ∨ (r.guild ∈ gs ∧ r.label ∈ order r.guild ∧
      ∃ chs, s.GuildChannels r.guild = .ok chs ∧ discover chs r.label = none)) ∧
    (∀ g ∈ gs, ∀ chs, s.GuildChannels g = .ok chs → ∀ k ∈ order g,
      discover chs k = none → ∃ r ∈ fin.2, r.guild = g ∧ r.label = k) := by
  induction gs generalizing st with
  | nil =>
    simp only [List.foldlM_nil, pure, Except.pure, Except.ok.injEq] at h
    subst h
    simp
  | cons g0 gs ih =>
    rw [List.foldlM_cons] at h
    cases hstep : setupGuild s now order st g0 with
    | error e =>
      rw [hstep] at h
      cases h
    | ok st1 =>
      rw [hstep] at h
      obtain ⟨i1, i2, i3, i4, i5⟩ := ih st1 h
      obtain ⟨chs0, hchs0, s1, s2, s3, s4, s5, s6⟩ :=
        setupGuild_ok s now order hcreate st st1 g0 hstep
      refine ⟨?_, ?_, ?_, ?_, ?_⟩
      · intro g hg
        rw [List.mem_cons, not_or] at hg
        rw [i1 g hg.2, s1 g hg.1]
      · intro g hg
        by_cases hm : g ∈ gs
        · exact i2 g hm
        · rcases List.mem_cons.mp hg with rfl | hg
          · refine ⟨chs0, hchs0, ?_, ?_⟩
            · intro k c hk
              rw [i1 g hm]
              exact s2 k c hk
            · intro k hk
              rw [i1 g hm]
              exact s3 k hk
          · exact absurd hg hm
      · intro r hr
        exact i3 r (s4 r hr)
      · intro r hr
        rcases i4 r hr with h1 | ⟨h1, h2, h3⟩
        · rcases s5 r h1 with h1 | ⟨h1, h2, h3⟩
          · exact Or.inl h1
          · refine Or.inr ⟨by rw [h1]; exact List.mem_cons_self _ _, by rw [h1]; exact h2, ?_⟩
            exact ⟨chs0, by rw [h1]; exact hchs0, h3⟩
        · exact Or.inr ⟨List.mem_cons_of_mem _ h1, h2, h3⟩
      · intro g hg chs hchs k hk hd
        rcases List.mem_cons.mp hg with rfl | hg
        · rw [hchs0] at hchs
          cases hchs
          obtain ⟨r, hr, hr1, hr2⟩ := s6 k hk hd
          exact ⟨r, i3 r hr, hr1, hr2⟩
        · exact i5 g hg chs hchs k hk hd

/-- C5: when the scan-or-create phase ends without a fatal exit, on a session
whose creation calls return a channel whenever they return no error and with
each creation loop ranging over the four labels, the registry holds a channel
for every configured guild and every one of the four labels; a channel that
discovery recorded for a label is the one the registry holds; every creation
request was issued for a label of a configured guild for which discovery
recorded nothing, and every such label got a creation request. -/
theorem registry_complete (s : Session) (now : String → String → Int)
    (order : String → List String) (guildIDs : List String)
    (reg : Registry) (log : List CreateRequest)
    (hrun : buildRegistry s now order guildIDs = .ok (reg, log))
    (hcreate : ∀ g name ty, (s.GuildChannelCreate g name ty).2 = none →
      ∃ c, (s.GuildChannelCreate g name ty).1 = some c)
    (horder : ∀ g, (order g).Perm zoneLabels) :
    (∀ g ∈ guildIDs, ∀ k ∈ zoneLabels, ∃ c, reg g k = some c) ∧
    (∀ g ∈ guildIDs, ∃ chs, s.GuildChannels g = .ok chs ∧
      ∀ k c, discover chs k = some c → reg g k = some c) ∧
    (∀ r ∈ log, r.guild ∈ guildIDs ∧ r.label ∈ zoneLabels ∧
      ∃ chs, s.GuildChannels r.guild = .ok chs ∧ discover chs r.label = none) ∧
    (∀ g ∈ guildIDs, ∀ chs, s.GuildChannels g = .ok chs → ∀ k ∈ zoneLabels,
      discover chs k = none → ∃ r ∈ log, r.guild = g ∧ r.label = k) := by
  unfold buildRegistry at hrun
  obtain ⟨-, i2, -, i4, i5⟩ := buildRegistry_ok s now order hcreate guildIDs _ _ hrun
  refine ⟨?_, ?_, ?_, ?_⟩
  · intro g hg k hk
    obtain ⟨chs, -, -, h3⟩ := i2 g hg
    exact h3 k ((horder g).mem_iff.mpr hk)
  · intro g hg
    obtain ⟨chs, h1, h2, -⟩ := i2 g hg
    exact ⟨chs, h1, h2⟩
  · intro r hr
    rcases i4 r hr with h1 | ⟨h1, h2, h3⟩
    · simp at h1
    · exact ⟨h1, (horder r.guild).mem_iff.mp h2, h3⟩
  · intro g hg chs hchs k hk hd
    exact i5 g hg chs hchs k ((horder g).mem_iff.mpr hk) hd

/-- Witness for C5: one configured guild whose only voice channel is a PST
clock, at 2024-03-10T17:05:00Z; discovery keeps that channel and the three
other labels are created, EST among them. -/
theorem registry_complete_witness :
    ∃ c, Registry.set (fun _ _ => none) "g"
      ((((discover [⟨"7", "09:00 PST | Mon Jan 01", ChannelTypeGuildVoice⟩]).set "UTC"
          (some ⟨"new", "17:05 UTC | Sun Mar 10", ChannelTypeGuildVoice⟩)).set "EST"
          (some ⟨"new", "13:05 EDT | Sun Mar 10", ChannelTypeGuildVoice⟩)).set "AEST"
          (some ⟨"new", "04:05 AEDT | Mon Mar 11", ChannelTypeGuildVoice⟩)) "g" "EST" = some c :=
  (registry_complete
    ⟨fun _ => .ok [⟨"7", "09:00 PST | Mon Jan 01", ChannelTypeGuildVoice⟩],
      fun _ name ty => (some ⟨"new", name, ty⟩, none), fun _ _ => (none, none)⟩
    (fun _ _ => unixOf 2024 3 10 17 5 0) (fun _ => zoneLabels) ["g"]
    (Registry.set (fun _ _ => none) "g"
      ((((discover [⟨"7", "09:00 PST | Mon Jan 01", ChannelTypeGuildVoice⟩]).set "UTC"
          (some ⟨"new", "17:05 UTC | Sun Mar 10", ChannelTypeGuildVoice⟩)).set "EST"
          (some ⟨"new", "13:05 EDT | Sun Mar 10", ChannelTypeGuildVoice⟩)).set "AEST"
          (some ⟨"new", "04:05 AEDT | Mon Mar 11", ChannelTypeGuildVoice⟩)))
    [⟨"g", "UTC", "17:05 UTC | Sun Mar 10"⟩, ⟨"g", "EST", "13:05 EDT | Sun Mar 10"⟩,
      ⟨"g", "AEST", "04:05 AEDT | Mon Mar 11"⟩]
    rfl
    (fun _ _ _ _ => ⟨_, rfl⟩) (fun _ => List.Perm.refl _)).1 "g" (by decide) "EST" (by decide)

end Timekeeper
